import Mathlib

/-!
# Shallow embedding of the `ratelimit` library (`src/ratelimiter.ts`)

We model the four rate-limiting algorithms (`fixedWindow`, `slidingWindow`,
`tokenBucket`, `eventualWrite`), the facade key join used by `Ratelimit.limit`,
and the `blockUntilReady` polling loop.

Modelling conventions:
* Wall-clock time (`Date.now()`, epoch milliseconds) is a natural number.
* For one fixed identifier, the window algorithms address Redis keys
  `identifier ++ ":" ++ bucket`; distinct bucket indices give distinct keys
  (proved separately at the string level for the full
  `prefix:identifier:bucket` join), so the per-identifier store is modelled
  as a map from the bucket index (an integer, since the sliding-window
  previous bucket index may be negative) to an optional counter, together
  with a map recording the TTL last installed by `PEXPIRE` per key.
* Each Redis `eval` of a Lua script is one atomic step: a pure function from
  store state to (script result, new store state).
* Lua numbers are modelled as `Nat`/`Int` where the script only does integer
  arithmetic, and as `ℚ` for the sliding-window weighted check
  `(now % window) / window`, which performs exact division of values in this
  range.
-/

namespace Ratelimit

/-- The uniform decision record returned by every algorithm
(`RatelimitResponse` in `types.ts`): `remaining` and `reset` are `Int`
because `remaining` may go negative and `reset` arithmetic is integer. -/
structure RatelimitResponse where
  success : Bool
  limit : Nat
  remaining : Int
  reset : Int
deriving Repr, DecidableEq

/-- Per-identifier view of the Redis store used by the window algorithms:
`counter b` is the value stored under key `identifier:b` (`none` = absent),
`ttl b` is the TTL last set by `PEXPIRE` on that key (`none` = never set). -/
structure WinStore where
  counter : Int → Option Nat
  ttl : Int → Option Nat

/-- Redis `INCR key`: creates the key at `1` when absent, else adds one;
returns the post-increment value. -/
def WinStore.incr (s : WinStore) (b : Int) : Nat × WinStore :=
  let r := (s.counter b).getD 0 + 1
  (r, { s with counter := fun b2 => if b2 = b then some r else s.counter b2 })

/-- Redis `PEXPIRE key t`: records a TTL of `t` milliseconds on the key. -/
def WinStore.expire (s : WinStore) (b : Int) (t : Nat) : WinStore :=
  { s with ttl := fun b2 => if b2 = b then some t else s.ttl b2 }

/-- The bucket index `Math.floor(Date.now() / windowDuration)` (`Nat`
division floors, and the result is cast into the bucket-index type `Int`). -/
def currentWindow (now window : Nat) : Int := ((now / window : Nat) : Int)

/-- The sliding-window previous bucket index
`previousWindow = currentWindow - windowSize` from the source: the window
length itself is subtracted from the bucket index. -/
def previousWindow (now window : Nat) : Int := currentWindow now window - window

/-- The Lua script of `Ratelimit.fixedWindow`: `INCR` the bucket key, and on
first creation (post-increment value 1) `PEXPIRE` it to the window length;
returns the post-increment counter. -/
def fixedWindowScript (window : Nat) (bucket : Int) (s : WinStore) :
    Nat × WinStore :=
  let (r, s1) := s.incr bucket
  (r, if r = 1 then s1.expire bucket window else s1)

/-- `Ratelimit.fixedWindow(tokens, window)` applied at time `now` for one
identifier: runs the script on the current bucket and assembles the
response. -/
def fixedWindow (tokens window now : Nat) (s : WinStore) :
    RatelimitResponse × WinStore :=
  let bucket := currentWindow now window
  let (usedTokensAfterUpdate, s1) := fixedWindowScript window bucket s
  ({ success := decide (usedTokensAfterUpdate ≤ tokens)
     limit := tokens
     remaining := (tokens : Int) - usedTokensAfterUpdate
     reset := (bucket + 1) * (window : Int) }, s1)

/-- `Ratelimit.eventualWrite(tokens, window)` applied at time `now`: the
decision is computed from a plain `GET` of the current bucket key (absent
maps to `1` via the source's `?? 1` default), and the `INCR` (with its
conditional `expire`) is fired afterwards without being awaited — the
returned response is a function of the pre-increment store only, and the
returned post-state reflects the detached increment once it lands. -/
def eventualWrite (tokens window now : Nat) (s : WinStore) :
    RatelimitResponse × WinStore :=
  let bucket := currentWindow now window
  let usedTokensAfterUpdate := (s.counter bucket).getD 1
  let (r, s1) := s.incr bucket
  let s2 := if r = 1 then s1.expire bucket window else s1
  ({ success := decide (usedTokensAfterUpdate ≤ tokens)
     limit := tokens
     remaining := (tokens : Int) - usedTokensAfterUpdate
     reset := (bucket + 1) * (window : Int) }, s2)

/-- The weighted occupancy `requestsInPreviousWindow * (1 - percentageInCurrent)
+ requestsInCurrentWindow` tested by the sliding-window script, with
`percentageInCurrent = (now % window) / window` as exact rational
arithmetic. -/
def slidingLoad (tokens window now : Nat) (s : WinStore) : Prop :=
  let requestsInCurrentWindow := (s.counter (currentWindow now window)).getD 0
  let requestsInPreviousWindow := (s.counter (previousWindow now window)).getD 0
  let percentageInCurrent : ℚ := ((now % window : Nat) : ℚ) / (window : ℚ)
  (requestsInPreviousWindow : ℚ) * (1 - percentageInCurrent)
      + (requestsInCurrentWindow : ℚ) ≥ (tokens : ℚ)

instance (tokens window now : Nat) (s : WinStore) :
    Decidable (slidingLoad tokens window now s) := by
  unfold slidingLoad; exact inferInstance

/-- The Lua script of `Ratelimit.slidingWindow`: reads the current and
previous bucket counters (absent reads as 0), denies with result `0` when
the weighted load reaches `tokens`, otherwise increments the current bucket
(setting a TTL of `window * 2 + 1000` on first creation) and returns
`tokens - newValue`. -/
def slidingWindowScript (tokens window now : Nat) (s : WinStore) :
    Int × WinStore :=
  if slidingLoad tokens window now s then (0, s)
  else
    let (newValue, s1) := s.incr (currentWindow now window)
    ((tokens : Int) - newValue,
     if newValue = 1 then s1.expire (currentWindow now window) (window * 2 + 1000)
     else s1)

/-- `Ratelimit.slidingWindow(tokens, window)` applied at time `now` for one
identifier: runs the script on the current/previous bucket keys and
assembles the response (`success` is `remaining > 0`). -/
def slidingWindow (tokens window now : Nat) (s : WinStore) :
    RatelimitResponse × WinStore :=
  let (remaining, s1) := slidingWindowScript tokens window now s
  ({ success := decide (remaining > 0)
     limit := tokens
     remaining := remaining
     reset := (currentWindow now window + 1) * (window : Int) }, s1)

/-- Per-identifier view of the Redis store used by `tokenBucket`: the hash at
key `identifier:k` holds fields `(updatedAt, tokens)`; stored tokens are
`Int` (the script can write `min(maxTokens, tokens + refillRate) - 1`,
negative when `refillRate = 0` and the stored count is `0`). -/
structure BucketStore where
  record : Nat → Option (Nat × Int)
  ttl : Nat → Option Nat

/-- The Lua script of `Ratelimit.tokenBucket`: `HMGET` the hash, then exactly
one of four branches — create-and-consume, refill-and-consume, consume, or
deny without writing — returning `{remaining, reset}`. In the deny branch
the returned first component is the script-local `remaining`, still at its
initial value `0`. -/
def tokenBucketScript (maxTokens interval refillRate now : Nat) (key : Nat)
    (s : BucketStore) : (Int × Int) × BucketStore :=
  match s.record key with
  | none =>
      let remaining : Int := (maxTokens : Int) - 1
      ((remaining, (now : Int) + interval),
       { record := fun k => if k = key then some (now, remaining) else s.record k
         ttl := fun k => if k = key then some interval else s.ttl k })
  | some (updatedAt, tokens) =>
      if updatedAt + interval ≤ now then
        let remaining : Int := min (maxTokens : Int) (tokens + refillRate) - 1
        ((remaining, (now : Int) + interval),
         { s with
            record := fun k => if k = key then some (now, remaining) else s.record k })
      else if 0 < tokens then
        let remaining : Int := tokens - 1
        ((remaining, (updatedAt : Int) + interval),
         { s with
            record := fun k => if k = key then some (now, remaining) else s.record k })
      else
        ((0, (updatedAt : Int) + interval), s)

/-- `Ratelimit.tokenBucket(refillRate, interval, maxTokens)` applied at time
`now` for one identifier: the storage key is the coarse bucket id
`floor(now / interval)`, and `success = remaining > 0`. -/
def tokenBucket (refillRate interval maxTokens now : Nat) (s : BucketStore) :
    RatelimitResponse × BucketStore :=
  let key := now / interval
  let (res, s1) := tokenBucketScript maxTokens interval refillRate now key s
  ({ success := decide (res.1 > 0)
     limit := maxTokens
     remaining := res.1
     reset := res.2 }, s1)

/-- The store state after `k` consecutive `tokenBucket` calls, all issued at
the same instant `now`. -/
def tbRepeat (refillRate interval maxTokens now : Nat) (s : BucketStore) :
    Nat → BucketStore
  | 0 => s
  | k + 1 =>
      (tokenBucket refillRate interval maxTokens now
        (tbRepeat refillRate interval maxTokens now s k)).2

/-- The response of the `k`-th (1-indexed) of `k` consecutive `tokenBucket`
calls at instant `now`. -/
def tbNth (refillRate interval maxTokens now : Nat) (s : BucketStore)
    (k : Nat) : RatelimitResponse :=
  (tokenBucket refillRate interval maxTokens now
    (tbRepeat refillRate interval maxTokens now s (k - 1))).1

/-- Outcome of `blockUntilReady`: either a thrown `Error(msg)` or a returned
response (which may be the last failing response when the deadline passes). -/
inductive BlockOutcome where
  | thrown (msg : String)
  | result (r : RatelimitResponse)
deriving Repr, DecidableEq

/-- The polling loop of `Ratelimit.blockUntilReady`, fuelled (the fuel only
bounds the unrolling; the source loop has none). `limitFn t` is the response
`this.limit(identifier)` delivers when invoked at time `t`; `calls` counts
the `limit` invocations — each is the sole store access of an iteration. The
cooperative sleep `setTimeout(r, wait)` resumes at `t + max wait 0`. -/
def blockUntilReadyLoop (limitFn : Int → RatelimitResponse) (deadline : Int) :
    Nat → Int → Nat → BlockOutcome × Nat
  | 0, _, calls => (.thrown ("fuel exhausted"), calls)
  | fuel + 1, t, calls =>
      let res := limitFn t
      if res.success then (.result res, calls + 1)
      else if res.reset = 0 then (.thrown ("This should not happen"), calls + 1)
      else
        let wait := min res.reset deadline - t
        let t2 := t + max wait 0
        if deadline < t2 then (.result res, calls + 1)
        else blockUntilReadyLoop limitFn deadline fuel t2 (calls + 1)

/-- `Ratelimit.blockUntilReady(identifier, timeout)` started at time `now`:
a non-positive timeout throws `"timeout must be positive"` synchronously,
before the loop — and hence before any store access — is entered; otherwise
the loop polls against `deadline = now + timeout`. Returns the outcome and
the number of `limit` calls (store accesses) performed. -/
def blockUntilReady (limitFn : Int → RatelimitResponse) (timeout now : Int)
    (fuel : Nat) : BlockOutcome × Nat :=
  if timeout ≤ 0 then (.thrown ("timeout must be positive"), 0)
  else blockUntilReadyLoop limitFn (now + timeout) fuel now 0

/-- The facade key of `Ratelimit.limit`: `[prefix, identifier].join(":")`. -/
def facadeKey (pfx identifier : String) : String := pfx ++ ":" ++ identifier

/-- The bucket key built inside each window algorithm:
`[identifier, bucket].join(":")`, where `identifier` is already the facade
key and `bucket` is the decimal rendering of the bucket index. -/
def bucketKey (identifier bucketStr : String) : String :=
  identifier ++ ":" ++ bucketStr

/-- The full store key `prefix:identifier:bucket`. -/
def fullKey (pfx identifier bucketStr : String) : String :=
  bucketKey (facadeKey pfx identifier) bucketStr

/-- A store with no keys (fresh identifier). -/
def emptyWin : WinStore := ⟨fun _ => none, fun _ => none⟩

/-- A `limit` oracle that always admits (used to instantiate the
`blockUntilReady` theorems at a concrete input). -/
def constAllow : Int → RatelimitResponse :=
  fun _ => { success := true, limit := 1, remaining := 0, reset := 1 }

/-- A fresh token-bucket store. -/
def emptyBucket : BucketStore := ⟨fun _ => none, fun _ => none⟩

/-- A window store whose bucket `0` counter holds `c` (used to instantiate
theorems at concrete states). -/
def winWithCurrent (c : Nat) : WinStore :=
  ⟨fun b => if b = 0 then some c else none, fun _ => none⟩

/-- A token-bucket store whose key `k` hash holds `(u, t)`. -/
def bucketWith (k u : Nat) (t : Int) : BucketStore :=
  ⟨fun k2 => if k2 = k then some (u, t) else none, fun _ => none⟩

end Ratelimit

namespace Ratelimit

/-- C1: a Fixed Window call at time `now` addresses bucket `floor(now/W)`,
increments that bucket's counter to `c` (creating it at 1 when absent,
touching no other key), sets the key's expiry to `W` exactly when `c = 1`,
and returns `success = (c ≤ tokens)`, `limit = tokens`,
`remaining = tokens - c` (possibly negative), `reset = (bucket+1) * W`; in
particular any call finding the bucket already at or above `tokens` (the
`(N+1)`-th request and beyond) is denied. -/
theorem fixedWindow_correct (tokens window now : Nat) (s : WinStore) :
    (fixedWindow tokens window now s).1.success
        = decide ((s.counter (currentWindow now window)).getD 0 + 1 ≤ tokens) ∧
    (fixedWindow tokens window now s).1.limit = tokens ∧
    (fixedWindow tokens window now s).1.remaining
        = (tokens : Int) - ((s.counter (currentWindow now window)).getD 0 + 1) ∧
    (fixedWindow tokens window now s).1.reset
        = (currentWindow now window + 1) * (window : Int) ∧
    (fixedWindow tokens window now s).2.counter (currentWindow now window)
        = some ((s.counter (currentWindow now window)).getD 0 + 1) ∧
    (∀ b, b ≠ currentWindow now window →
        (fixedWindow tokens window now s).2.counter b = s.counter b) ∧
    ((s.counter (currentWindow now window)).getD 0 + 1 = 1 →
        (fixedWindow tokens window now s).2.ttl (currentWindow now window)
          = some window) ∧
    ((s.counter (currentWindow now window)).getD 0 + 1 ≠ 1 →
        (fixedWindow tokens window now s).2.ttl = s.ttl) ∧
    (tokens < (s.counter (currentWindow now window)).getD 0 + 1 →
        (fixedWindow tokens window now s).1.success = false) := by
  refine ⟨rfl, rfl, rfl, rfl, ?_, ?_, ?_, ?_, ?_⟩
  · simp only [fixedWindow, fixedWindowScript, WinStore.incr, WinStore.expire]
    split <;> simp
  · intro b hb
    simp only [fixedWindow, fixedWindowScript, WinStore.incr, WinStore.expire]
    split <;> simp [hb]
  · intro h
    simp only [fixedWindow, fixedWindowScript, WinStore.incr, WinStore.expire, h]
    simp
  · intro h
    simp only [fixedWindow, fixedWindowScript, WinStore.incr, WinStore.expire]
    split
    · omega
    · rfl
  · intro h
    simp only [fixedWindow, fixedWindowScript, WinStore.incr,
      decide_eq_false_iff_not]
    omega

/-- Witness for C1: evaluates `fixedWindow_correct` at concrete inputs — a
fresh store admits the first request with `remaining = 1` under quota 2 and
installs the TTL, and under quota 0 the same call is denied. -/
theorem fixedWindow_correct_witness :
    (fixedWindow 2 1000 1500 emptyWin).1.success = true ∧
    (fixedWindow 2 1000 1500 emptyWin).1.remaining = 1 ∧
    (fixedWindow 2 1000 1500 emptyWin).2.ttl (currentWindow 1500 1000)
        = some 1000 ∧
    (fixedWindow 2 1000 1500 emptyWin).2.counter 5 = emptyWin.counter 5 ∧
    (fixedWindow 0 1000 1500 emptyWin).1.success = false := by
  obtain ⟨h1, _, h3, _, _, h6, h7, _, _⟩ := fixedWindow_correct 2 1000 1500 emptyWin
  obtain ⟨_, _, _, _, _, _, _, _, d9⟩ := fixedWindow_correct 0 1000 1500 emptyWin
  refine ⟨?_, ?_, h7 (by decide), h6 5 (by decide), d9 (by decide)⟩
  · rw [h1]; decide
  · rw [h3]; decide

/-- C6: an Eventual Write call computes its whole decision from the single
point read of the current bucket's counter taken before its own increment:
with `v` the observed value (an absent bucket reads as the default `1`), it
returns `success = (v ≤ tokens)`, `limit = tokens`, `remaining = tokens - v`
and `reset = (bucket+1) * W`; the detached increment then lands (with the
expiry installed exactly when it creates the key) without being reflected in
the returned decision, and the first request in an absent bucket gets
`remaining = tokens - 1` and succeeds whenever `tokens ≥ 1`. -/
theorem eventualWrite_correct (tokens window now : Nat) (s : WinStore) :
    (eventualWrite tokens window now s).1.success
        = decide ((s.counter (currentWindow now window)).getD 1 ≤ tokens) ∧
    (eventualWrite tokens window now s).1.limit = tokens ∧
    (eventualWrite tokens window now s).1.remaining
        = (tokens : Int) - ((s.counter (currentWindow now window)).getD 1 : Int) ∧
    (eventualWrite tokens window now s).1.reset
        = (currentWindow now window + 1) * (window : Int) ∧
    (∀ v, s.counter (currentWindow now window) = some v →
        (eventualWrite tokens window now s).1.remaining = (tokens : Int) - v ∧
        (eventualWrite tokens window now s).1.success = decide (v ≤ tokens)) ∧
    (s.counter (currentWindow now window) = none →
        (eventualWrite tokens window now s).1.remaining = (tokens : Int) - 1 ∧
        (1 ≤ tokens → (eventualWrite tokens window now s).1.success = true)) ∧
    (eventualWrite tokens window now s).2.counter (currentWindow now window)
        = some ((s.counter (currentWindow now window)).getD 0 + 1) ∧
    ((s.counter (currentWindow now window)).getD 0 + 1 = 1 →
        (eventualWrite tokens window now s).2.ttl (currentWindow now window)
          = some window) ∧
    ((s.counter (currentWindow now window)).getD 0 + 1 ≠ 1 →
        (eventualWrite tokens window now s).2.ttl = s.ttl) := by
  refine ⟨rfl, rfl, rfl, rfl, ?_, ?_, ?_, ?_, ?_⟩
  · intro v hv
    constructor
    · show (tokens : Int) - ((s.counter (currentWindow now window)).getD 1 : Int)
          = (tokens : Int) - v
      rw [hv]; rfl
    · show decide ((s.counter (currentWindow now window)).getD 1 ≤ tokens)
          = decide (v ≤ tokens)
      rw [hv]; rfl
  · intro hv
    constructor
    · show (tokens : Int) - ((s.counter (currentWindow now window)).getD 1 : Int)
          = (tokens : Int) - 1
      rw [hv]; rfl
    · intro ht
      show decide ((s.counter (currentWindow now window)).getD 1 ≤ tokens) = true
      rw [hv]
      simpa using ht
  · simp only [eventualWrite, WinStore.incr, WinStore.expire]
    split <;> simp
  · intro h
    simp only [eventualWrite, WinStore.incr, WinStore.expire, h]
    simp
  · intro h
    simp only [eventualWrite, WinStore.incr, WinStore.expire]
    split
    · omega
    · rfl

/-- Witness for C6: evaluates `eventualWrite_correct` at concrete inputs — a
fresh bucket under quota 3 reads the default 1, returns `remaining = 2` and
succeeds, and the detached increment creates the counter at 1 with its TTL;
a bucket already at 5 under quota 3 is denied with `remaining = -2`. -/
theorem eventualWrite_correct_witness :
    (eventualWrite 3 1000 500 emptyWin).1.remaining = 2 ∧
    (eventualWrite 3 1000 500 emptyWin).1.success = true ∧
    (eventualWrite 3 1000 500 emptyWin).2.counter 0 = some 1 ∧
    (eventualWrite 3 1000 500 emptyWin).2.ttl 0 = some 1000 ∧
    (eventualWrite 3 1000 500 (winWithCurrent 5)).1.remaining = -2 ∧
    (eventualWrite 3 1000 500 (winWithCurrent 5)).1.success = false := by
  obtain ⟨_, _, _, _, _, h6, h7, h8, _⟩ := eventualWrite_correct 3 1000 500 emptyWin
  obtain ⟨_, _, _, _, g5, _, _, _, _⟩ :=
    eventualWrite_correct 3 1000 500 (winWithCurrent 5)
  obtain ⟨ha, hb⟩ := h6 (by decide)
  obtain ⟨ga, gb⟩ := g5 5 (by decide)
  refine ⟨by rw [ha]; decide, hb (by decide), ?_, h8 (by decide),
    by rw [ga]; decide, by rw [gb]; decide⟩
  · rw [show (0 : Int) = currentWindow 500 1000 from rfl, h7]
    decide

/-- C2: a Sliding Window call at time `now` has `limit = tokens`,
`reset = (currentBucket+1) * W` and `success = (remaining > 0)` in all
cases; when the weighted load
`previousCount * (1 - (now % W)/W) + currentCount` reaches `tokens` it
denies with `remaining = 0` and leaves the store untouched; otherwise it
increments the current bucket's counter to `newValue = currentCount + 1`
(touching no other key), installs the TTL `2*W + 1000` exactly when
`newValue = 1`, and returns `remaining = tokens - newValue` (a non-positive
value makes `success` false via the `> 0` check, not by any extra
clamping). -/
theorem slidingWindow_correct (tokens window now : Nat) (s : WinStore) :
    (slidingWindow tokens window now s).1.limit = tokens ∧
    (slidingWindow tokens window now s).1.reset
        = (currentWindow now window + 1) * (window : Int) ∧
    (slidingWindow tokens window now s).1.success
        = decide ((slidingWindow tokens window now s).1.remaining > 0) ∧
    ((((s.counter (previousWindow now window)).getD 0 : ℚ)
          * (1 - ((now % window : Nat) : ℚ) / (window : ℚ))
          + ((s.counter (currentWindow now window)).getD 0 : ℚ)
          ≥ (tokens : ℚ)) →
        (slidingWindow tokens window now s).1.success = false ∧
        (slidingWindow tokens window now s).1.remaining = 0 ∧
        (slidingWindow tokens window now s).2 = s) ∧
    (¬ (((s.counter (previousWindow now window)).getD 0 : ℚ)
          * (1 - ((now % window : Nat) : ℚ) / (window : ℚ))
          + ((s.counter (currentWindow now window)).getD 0 : ℚ)
          ≥ (tokens : ℚ)) →
        (slidingWindow tokens window now s).1.remaining
            = (tokens : Int) - ((s.counter (currentWindow now window)).getD 0 + 1) ∧
        (slidingWindow tokens window now s).2.counter (currentWindow now window)
            = some ((s.counter (currentWindow now window)).getD 0 + 1) ∧
        (∀ b, b ≠ currentWindow now window →
            (slidingWindow tokens window now s).2.counter b = s.counter b) ∧
        ((s.counter (currentWindow now window)).getD 0 + 1 = 1 →
            (slidingWindow tokens window now s).2.ttl (currentWindow now window)
              = some (window * 2 + 1000)) ∧
        ((s.counter (currentWindow now window)).getD 0 + 1 ≠ 1 →
            (slidingWindow tokens window now s).2.ttl = s.ttl)) := by
  refine ⟨rfl, rfl, rfl, ?_, ?_⟩
  · intro h
    have hl : slidingLoad tokens window now s := h
    refine ⟨?_, ?_, ?_⟩ <;>
      simp only [slidingWindow, slidingWindowScript, if_pos hl]
    rfl
  · intro h
    have hl : ¬ slidingLoad tokens window now s := h
    refine ⟨?_, ?_, ?_, ?_, ?_⟩
    · simp only [slidingWindow, slidingWindowScript, if_neg hl, WinStore.incr,
        WinStore.expire]
      push_cast
      ring
    · simp only [slidingWindow, slidingWindowScript, if_neg hl, WinStore.incr,
        WinStore.expire]
      split <;> simp
    · intro b hb
      simp only [slidingWindow, slidingWindowScript, if_neg hl, WinStore.incr,
        WinStore.expire]
      split <;> simp [hb]
    · intro hc
      simp only [slidingWindow, slidingWindowScript, if_neg hl, WinStore.incr,
        WinStore.expire, hc]
      simp
    · intro hc
      simp only [slidingWindow, slidingWindowScript, if_neg hl, WinStore.incr,
        WinStore.expire]
      split
      · omega
      · rfl

/-- Witness for C2: evaluates `slidingWindow_correct` at concrete inputs —
with quota 2, window 10, `now = 5` (weight 1/2): a store with current count
5 is denied unchanged; a store with current count 1 passes the weighted
check, increments to 2 and is the allowed-branch denial `remaining = 0`;
a fresh store gets counter 1 and the TTL `2*10 + 1000`. -/
theorem slidingWindow_correct_witness :
    (slidingWindow 2 10 5 (winWithCurrent 5)).1.success = false ∧
    (slidingWindow 2 10 5 (winWithCurrent 5)).2 = winWithCurrent 5 ∧
    (slidingWindow 2 10 5 (winWithCurrent 1)).1.remaining = 0 ∧
    (slidingWindow 2 10 5 (winWithCurrent 1)).2.counter 0 = some 2 ∧
    (slidingWindow 2 10 5 emptyWin).2.counter 0 = some 1 ∧
    (slidingWindow 2 10 5 emptyWin).2.ttl 0 = some 1020 := by
  obtain ⟨_, _, _, hdeny, _⟩ := slidingWindow_correct 2 10 5 (winWithCurrent 5)
  obtain ⟨_, _, _, _, hallow⟩ := slidingWindow_correct 2 10 5 (winWithCurrent 1)
  obtain ⟨_, _, _, _, hfresh⟩ := slidingWindow_correct 2 10 5 emptyWin
  have hd := hdeny (by norm_num [winWithCurrent, previousWindow, currentWindow])
  have ha := hallow (by norm_num [winWithCurrent, previousWindow, currentWindow])
  have hf := hfresh (by norm_num [emptyWin, previousWindow, currentWindow])
  refine ⟨hd.1, hd.2.2, ?_, ?_, ?_, ?_⟩
  · rw [ha.1]; decide
  · rw [show (0 : Int) = currentWindow 5 10 from rfl, ha.2.1]; decide
  · rw [show (0 : Int) = currentWindow 5 10 from rfl, hf.2.1]; decide
  · rw [show (0 : Int) = currentWindow 5 10 from rfl, hf.2.2.2.1 (by decide)]

/-- C3: the Sliding Window current bucket index is `floor(now / W)` and the
previous bucket key uses index `floor(now / W) - W` — the window length in
milliseconds is subtracted from the bucket index, not 1 — so for `W > 1` the
index read as the previous bucket is never `currentBucket - 1`, the index
the immediately preceding window's requests were counted under; moreover the
script's decision depends on the store only through its counters at exactly
these two indices. -/
theorem slidingWindow_previousBucket (now window : Nat) (h : 1 < window) :
    currentWindow now window = ((now / window : Nat) : Int) ∧
    previousWindow now window = currentWindow now window - (window : Int) ∧
    previousWindow now window ≠ currentWindow now window - 1 ∧
    (∀ (tokens : Nat) (s1 s2 : WinStore),
        s1.counter (currentWindow now window)
            = s2.counter (currentWindow now window) →
        s1.counter (previousWindow now window)
            = s2.counter (previousWindow now window) →
        (slidingWindowScript tokens window now s1).1
            = (slidingWindowScript tokens window now s2).1) := by
  refine ⟨rfl, rfl, ?_, ?_⟩
  · simp only [previousWindow]
    omega
  · intro tokens s1 s2 h1 h2
    simp only [slidingWindowScript, slidingLoad, WinStore.incr, h1, h2]
    split_ifs <;> rfl

/-- Witness for C3: evaluates `slidingWindow_previousBucket` at `now = 25`,
`W = 10` — the previous bucket index is `2 - 10 = -8`, not `1`, and two
stores agreeing on buckets `2` and `-8` produce the same script result. -/
theorem slidingWindow_previousBucket_witness :
    previousWindow 25 10 = -8 ∧
    previousWindow 25 10 ≠ currentWindow 25 10 - 1 ∧
    (slidingWindowScript 3 10 25 emptyWin).1
        = (slidingWindowScript 3 10 25 emptyWin).1 := by
  obtain ⟨_, h2, h3, h4⟩ := slidingWindow_previousBucket 25 10 (by decide)
  exact ⟨by rw [h2]; decide, h3, h4 3 emptyWin emptyWin rfl rfl⟩

/-- C4: a Token Bucket call at time `now` always returns `limit = maxTokens`
and `success = (remaining > 0)`, and its one transaction on the hash at key
`floor(now / I)` takes exactly one of four branches: (a) absent hash —
write `(now, M-1)`, set expiry `I`, return `(M-1, now+I)`; (b) refill due
(`now ≥ updatedAt + I`) — write `(now, min(M, stored+R) - 1)` (one discrete
catch-up step, no new expiry), return it with `reset = now+I`; (c) tokens
available — write `(now, stored-1)`, return `(stored-1, updatedAt+I)` with
the pre-call `updatedAt`; (d) otherwise return `(0, updatedAt+I)` without
writing. Keys other than `floor(now / I)` are never touched. -/
theorem tokenBucket_correct (refillRate interval maxTokens now : Nat)
    (s : BucketStore) :
    (tokenBucket refillRate interval maxTokens now s).1.limit = maxTokens ∧
    (tokenBucket refillRate interval maxTokens now s).1.success
        = decide ((tokenBucket refillRate interval maxTokens now s).1.remaining > 0) ∧
    (∀ k, k ≠ now / interval →
        (tokenBucket refillRate interval maxTokens now s).2.record k = s.record k ∧
        (tokenBucket refillRate interval maxTokens now s).2.ttl k = s.ttl k) ∧
    (s.record (now / interval) = none →
        (tokenBucket refillRate interval maxTokens now s).1.remaining
            = (maxTokens : Int) - 1 ∧
        (tokenBucket refillRate interval maxTokens now s).1.reset
            = (now : Int) + interval ∧
        (tokenBucket refillRate interval maxTokens now s).2.record (now / interval)
            = some (now, (maxTokens : Int) - 1) ∧
        (tokenBucket refillRate interval maxTokens now s).2.ttl (now / interval)
            = some interval) ∧
    (∀ updatedAt storedTokens,
        s.record (now / interval) = some (updatedAt, storedTokens) →
        (updatedAt + interval ≤ now →
            (tokenBucket refillRate interval maxTokens now s).1.remaining
                = min (maxTokens : Int) (storedTokens + refillRate) - 1 ∧
            (tokenBucket refillRate interval maxTokens now s).1.reset
                = (now : Int) + interval ∧
            (tokenBucket refillRate interval maxTokens now s).2.record (now / interval)
                = some (now, min (maxTokens : Int) (storedTokens + refillRate) - 1) ∧
            (tokenBucket refillRate interval maxTokens now s).2.ttl = s.ttl) ∧
        (now < updatedAt + interval → 0 < storedTokens →
            (tokenBucket refillRate interval maxTokens now s).1.remaining
                = storedTokens - 1 ∧
            (tokenBucket refillRate interval maxTokens now s).1.reset
                = (updatedAt : Int) + interval ∧
            (tokenBucket refillRate interval maxTokens now s).2.record (now / interval)
                = some (now, storedTokens - 1) ∧
            (tokenBucket refillRate interval maxTokens now s).2.ttl = s.ttl) ∧
        (now < updatedAt + interval → storedTokens ≤ 0 →
            (tokenBucket refillRate interval maxTokens now s).1.remaining = 0 ∧
            (tokenBucket refillRate interval maxTokens now s).1.reset
                = (updatedAt : Int) + interval ∧
            (tokenBucket refillRate interval maxTokens now s).2 = s)) := by
  refine ⟨rfl, rfl, ?_, ?_, ?_⟩
  · intro k hk
    simp only [tokenBucket, tokenBucketScript]
    rcases hrec : s.record (now / interval) with _ | ⟨u, t⟩ <;>
      simp only [hrec] <;> split_ifs <;> simp_all
  · intro habs
    simp only [tokenBucket, tokenBucketScript, habs]
    simp
  · intro u t hrec
    refine ⟨?_, ?_, ?_⟩
    · intro hdue
      simp only [tokenBucket, tokenBucketScript, hrec, if_pos hdue]
      simp
    · intro hnotdue hpos
      simp only [tokenBucket, tokenBucketScript, hrec,
        if_neg (by omega : ¬ u + interval ≤ now), if_pos hpos]
      simp
    · intro hnotdue hzero
      simp only [tokenBucket, tokenBucketScript, hrec,
        if_neg (by omega : ¬ u + interval ≤ now),
        if_neg (by omega : ¬ (0 : Int) < t)]
      simp

/-- Witness for C4: evaluates `tokenBucket_correct` with `R = 2`, `I = 10`,
`M = 5` at concrete states — (a) fresh store at `now = 3`: `(4, 13)` with
TTL 10; (b) stale hash `(0, 1)` at `now = 12`: refill to `min(5,3)-1 = 2`,
reset `22`; (c) live hash `(0, 3)` at `now = 4`: consume to `2`, reset
`10`; (d) live hash `(0, 0)` at `now = 4`: denial `(0, 10)` with the store
unchanged. -/
theorem tokenBucket_correct_witness :
    (tokenBucket 2 10 5 3 emptyBucket).1.remaining = 4 ∧
    (tokenBucket 2 10 5 3 emptyBucket).1.reset = 13 ∧
    (tokenBucket 2 10 5 3 emptyBucket).2.ttl 0 = some 10 ∧
    (tokenBucket 2 10 5 12 (bucketWith 1 0 1)).1.remaining = 2 ∧
    (tokenBucket 2 10 5 12 (bucketWith 1 0 1)).1.reset = 22 ∧
    (tokenBucket 2 10 5 4 (bucketWith 0 0 3)).1.remaining = 2 ∧
    (tokenBucket 2 10 5 4 (bucketWith 0 0 3)).1.reset = 10 ∧
    (tokenBucket 2 10 5 4 (bucketWith 0 0 0)).1.remaining = 0 ∧
    (tokenBucket 2 10 5 4 (bucketWith 0 0 0)).2 = bucketWith 0 0 0 ∧
    (tokenBucket 2 10 5 4 (bucketWith 0 0 0)).2.record 7
        = (bucketWith 0 0 0).record 7 := by
  obtain ⟨_, _, _, ha, _⟩ := tokenBucket_correct 2 10 5 3 emptyBucket
  obtain ⟨_, _, _, _, hb⟩ := tokenBucket_correct 2 10 5 12 (bucketWith 1 0 1)
  obtain ⟨_, _, _, _, hc⟩ := tokenBucket_correct 2 10 5 4 (bucketWith 0 0 3)
  obtain ⟨_, _, hk, _, hd⟩ := tokenBucket_correct 2 10 5 4 (bucketWith 0 0 0)
  obtain ⟨ha1, ha2, _, ha4⟩ := ha (by decide)
  obtain ⟨hb1, hb2, _, _⟩ := (hb 0 1 (by decide)).1 (by decide)
  obtain ⟨hc1, hc2, _, _⟩ := (hc 0 3 (by decide)).2.1 (by decide) (by decide)
  obtain ⟨hd1, _, hd3⟩ := (hd 0 0 (by decide)).2.2 (by decide) (by decide)
  refine ⟨by rw [ha1]; decide, by rw [ha2]; decide, ?_, by rw [hb1]; decide,
    by rw [hb2]; decide, by rw [hc1]; decide, by rw [hc2]; decide,
    by rw [hd1], hd3, (hk 7 (by decide)).1⟩
  · rw [show (0 : Nat) = 3 / 10 from rfl, ha4]

/-- After `k ≥ 1` consecutive `tokenBucket` calls at the same instant `now`
against an initially absent hash, the hash holds
`(now, maxTokens - min k maxTokens)`: each call until exhaustion consumes
one token, and further calls leave the zero unchanged. -/
theorem tbRepeat_record_at (refillRate interval maxTokens now : Nat)
    (s : BucketStore) (hI : 0 < interval) (hM : 0 < maxTokens)
    (hs : s.record (now / interval) = none) :
    ∀ k, 1 ≤ k →
      (tbRepeat refillRate interval maxTokens now s k).record (now / interval)
        = some (now, (maxTokens : Int) - min k maxTokens) := by
  intro k
  induction k with
  | zero => omega
  | succ n ih =>
      intro _
      by_cases hn : 1 ≤ n
      · have hrec := ih hn
        show (tokenBucket refillRate interval maxTokens now
            (tbRepeat refillRate interval maxTokens now s n)).2.record
              (now / interval) = _
        simp only [tokenBucket, tokenBucketScript, hrec]
        rw [if_neg (by omega : ¬ now + interval ≤ now)]
        by_cases hlt : n < maxTokens
        · rw [if_pos (by omega : (0 : Int) < (maxTokens : Int) - (min n maxTokens : Nat))]
          simp
          omega
        · rw [if_neg (by omega : ¬ (0 : Int) < (maxTokens : Int) - (min n maxTokens : Nat))]
          rw [hrec]
          simp
          omega
      · have hn0 : n = 0 := by omega
        subst hn0
        show (tokenBucket refillRate interval maxTokens now s).2.record
            (now / interval) = _
        simp only [tokenBucket, tokenBucketScript, hs]
        simp
        omega

/-- C10: the Token Bucket request that consumes the last token is itself
denied — with `maxTokens = 1` even the very first request on a fresh key
writes the hash (and its TTL) yet returns `success = false`; a live hash
holding exactly one token is consumed, written back as `(now, 0)`, and the
response is still denied; and from a fresh key, the `k`-th of `k`
consecutive requests at the same instant has
`remaining = maxTokens - min k maxTokens` and succeeds exactly when
`k < maxTokens` — a full bucket of `M` tokens admits only the first `M - 1`
requests. -/
theorem tokenBucket_last_token_denied (refillRate interval maxTokens now : Nat)
    (s : BucketStore) (hI : 0 < interval) (hM : 0 < maxTokens) :
    (s.record (now / interval) = none →
        (tokenBucket refillRate interval 1 now s).1.success = false ∧
        (tokenBucket refillRate interval 1 now s).1.remaining = 0 ∧
        (tokenBucket refillRate interval 1 now s).2.record (now / interval)
            = some (now, 0) ∧
        (tokenBucket refillRate interval 1 now s).2.ttl (now / interval)
            = some interval) ∧
    (∀ u, s.record (now / interval) = some (u, 1) → now < u + interval →
        (tokenBucket refillRate interval maxTokens now s).1.success = false ∧
        (tokenBucket refillRate interval maxTokens now s).1.remaining = 0 ∧
        (tokenBucket refillRate interval maxTokens now s).2.record (now / interval)
            = some (now, 0)) ∧
    (s.record (now / interval) = none → ∀ k, 1 ≤ k →
        (tbNth refillRate interval maxTokens now s k).remaining
            = (maxTokens : Int) - min k maxTokens ∧
        ((tbNth refillRate interval maxTokens now s k).success = true
            ↔ k < maxTokens)) := by
  refine ⟨?_, ?_, ?_⟩
  · intro hs
    simp only [tokenBucket, tokenBucketScript, hs]
    refine ⟨by decide, by decide, by simp, by simp⟩
  · intro u hu hlt
    simp only [tokenBucket, tokenBucketScript, hu,
      if_neg (by omega : ¬ u + interval ≤ now),
      if_pos (by decide : (0 : Int) < 1)]
    refine ⟨by decide, by decide, by simp⟩
  · intro hs k hk
    by_cases h1 : k = 1
    · subst h1
      show (tokenBucket refillRate interval maxTokens now
          (tbRepeat refillRate interval maxTokens now s 0)).1.remaining = _ ∧ _
      simp only [tbRepeat, tbNth, tokenBucket, tokenBucketScript, hs]
      constructor
      · simp
        omega
      · simp only [decide_eq_true_eq]
        omega
    · have hk2 : 2 ≤ k := by omega
      have hrec := tbRepeat_record_at refillRate interval maxTokens now s hI hM hs
        (k - 1) (by omega)
      have hstep : tbNth refillRate interval maxTokens now s k
          = (tokenBucket refillRate interval maxTokens now
              (tbRepeat refillRate interval maxTokens now s (k - 1))).1 := rfl
      rw [hstep]
      simp only [tokenBucket, tokenBucketScript, hrec]
      rw [if_neg (by omega : ¬ now + interval ≤ now)]
      by_cases hlt : k - 1 < maxTokens
      · rw [if_pos (by omega :
            (0 : Int) < (maxTokens : Int) - (min (k - 1) maxTokens : Nat))]
        constructor
        · simp
          omega
        · simp only [decide_eq_true_eq]
          omega
      · rw [if_neg (by omega :
            ¬ (0 : Int) < (maxTokens : Int) - (min (k - 1) maxTokens : Nat))]
        constructor
        · simp
          omega
        · simp only [decide_eq_true_eq]
          omega

/-- Witness for C10: evaluates `tokenBucket_last_token_denied` with
`R = 1`, `I = 10`, `M = 3` — a hash holding one token at `now = 4` is
denied while being rewritten to `(4, 0)`; from a fresh key, request 2 of 3
succeeds with `remaining = 1` and request 3 is denied with `remaining = 0`;
and with `M = 1` the first request on a fresh key is denied though it
writes `(4, 0)`. -/
theorem tokenBucket_last_token_denied_witness :
    (tokenBucket 1 10 3 4 (bucketWith 0 0 1)).1.success = false ∧
    (tokenBucket 1 10 3 4 (bucketWith 0 0 1)).2.record 0 = some (4, 0) ∧
    (tbNth 1 10 3 4 emptyBucket 2).remaining = 1 ∧
    (tbNth 1 10 3 4 emptyBucket 2).success = true ∧
    (tbNth 1 10 3 4 emptyBucket 3).remaining = 0 ∧
    (tbNth 1 10 3 4 emptyBucket 3).success = false ∧
    (tokenBucket 1 10 1 4 emptyBucket).1.success = false ∧
    (tokenBucket 1 10 1 4 emptyBucket).2.record 0 = some (4, 0) := by
  obtain ⟨_, hone, _⟩ :=
    tokenBucket_last_token_denied 1 10 3 4 (bucketWith 0 0 1) (by decide) (by decide)
  obtain ⟨hfresh1, _, hiter⟩ :=
    tokenBucket_last_token_denied 1 10 1 4 emptyBucket (by decide) (by decide)
  obtain ⟨_, _, hiter3⟩ :=
    tokenBucket_last_token_denied 1 10 3 4 emptyBucket (by decide) (by decide)
  obtain ⟨o1, _, o3⟩ := hone 0 (by decide) (by decide)
  obtain ⟨f1, _, f3, _⟩ := hfresh1 (by decide)
  obtain ⟨i21, i22⟩ := hiter3 (by decide) 2 (by decide)
  obtain ⟨i31, i32⟩ := hiter3 (by decide) 3 (by decide)
  refine ⟨o1, by rw [show (0 : Nat) = 4 / 10 from rfl, o3],
    by rw [i21]; decide, i22.mpr (by decide), by rw [i31]; decide, ?_,
    f1, by rw [show (0 : Nat) = 4 / 10 from rfl, f3]⟩
  · rcases hb : (tbNth 1 10 3 4 emptyBucket 3).success
    · rfl
    · exact absurd (i32.mp hb) (by decide)

/-- Counterexample to C5: a Fixed Window call that is denied still mutates
the store — with quota 1, window 1000 and one prior request in bucket 0,
the call at `now = 5` returns `success = false` yet increments the bucket
counter from 1 to 2. -/
theorem denied_mutation_counterexample :
    (fixedWindow 1 1000 5 (winWithCurrent 1)).1.success = false ∧
    (fixedWindow 1 1000 5 (winWithCurrent 1)).2.counter 0 = some 2 ∧
    (winWithCurrent 1).counter 0 = some 1 := by
  refine ⟨rfl, ?_, rfl⟩
  show (if (0 : Int) = currentWindow 5 1000 then some 2
      else (winWithCurrent 1).counter 0) = some 2
  rfl

/-- C5 as amended: only the denial paths that decide *before* writing leave
the store unchanged — a Sliding Window call denied by the weighted
pre-increment check and a Token Bucket call taking the empty-bucket,
refill-not-due branch mutate nothing; Fixed Window, by contrast, increments
its bucket counter on every call, denials included (Eventual Write is
exempt by design). -/
theorem denied_no_write_paths :
    (∀ (tokens window now : Nat) (s : WinStore),
        (((s.counter (previousWindow now window)).getD 0 : ℚ)
              * (1 - ((now % window : Nat) : ℚ) / (window : ℚ))
              + ((s.counter (currentWindow now window)).getD 0 : ℚ)
              ≥ (tokens : ℚ) →
          (slidingWindow tokens window now s).1.success = false ∧
          (slidingWindow tokens window now s).2 = s)) ∧
    (∀ (refillRate interval maxTokens now : Nat) (t : BucketStore)
        (u : Nat) (tk : Int),
        t.record (now / interval) = some (u, tk) → now < u + interval →
        tk ≤ 0 →
          (tokenBucket refillRate interval maxTokens now t).1.success = false ∧
          (tokenBucket refillRate interval maxTokens now t).2 = t) ∧
    (∀ (tokens window now : Nat) (s : WinStore),
        (fixedWindow tokens window now s).2.counter (currentWindow now window)
          = some ((s.counter (currentWindow now window)).getD 0 + 1)) := by
  refine ⟨?_, ?_, ?_⟩
  · intro tokens window now s h
    have hl : slidingLoad tokens window now s := h
    simp only [slidingWindow, slidingWindowScript, if_pos hl]
    exact ⟨by decide, trivial⟩
  · intro refillRate interval maxTokens now t u tk hrec hlt hz
    simp only [tokenBucket, tokenBucketScript, hrec,
      if_neg (by omega : ¬ u + interval ≤ now),
      if_neg (by omega : ¬ (0 : Int) < tk)]
    exact ⟨by decide, trivial⟩
  · intro tokens window now s
    simp only [fixedWindow, fixedWindowScript, WinStore.incr, WinStore.expire]
    split <;> simp

/-- Witness for the amended C5: evaluates `denied_no_write_paths` at
concrete inputs — a Sliding Window denial by the weighted check leaves the
store literally equal to its pre-state, a Token Bucket empty-bucket denial
does too, and a denied Fixed Window call still bumps its counter to 2. -/
theorem denied_no_write_paths_witness :
    (slidingWindow 1 10 5 (winWithCurrent 5)).1.success = false ∧
    (slidingWindow 1 10 5 (winWithCurrent 5)).2 = winWithCurrent 5 ∧
    (tokenBucket 1 10 3 4 (bucketWith 0 0 (-1))).1.success = false ∧
    (tokenBucket 1 10 3 4 (bucketWith 0 0 (-1))).2 = bucketWith 0 0 (-1) ∧
    (fixedWindow 1 10 5 (winWithCurrent 1)).2.counter (currentWindow 5 10)
        = some 2 := by
  obtain ⟨hsl, htb, hfw⟩ := denied_no_write_paths
  obtain ⟨s1, s2⟩ := hsl 1 10 5 (winWithCurrent 5)
    (by norm_num [winWithCurrent, previousWindow, currentWindow])
  obtain ⟨t1, t2⟩ := htb 1 10 3 4 (bucketWith 0 0 (-1)) 0 (-1) (by decide)
    (by decide) (by decide)
  exact ⟨s1, s2, t1, t2, by rw [hfw 1 10 5 (winWithCurrent 1)]; decide⟩

/-- C7: for positive window/interval configurations, every response of every
algorithm carries a `reset` strictly in the future (`reset > now`), in
particular nonzero — so a denial can never surface `reset = 0`, and the
`blockUntilReady` branch throwing on a denial with `reset = 0` cannot fire
on these algorithms' responses. -/
theorem reset_future_on_denial (tokens window now refillRate interval
    maxTokens nowTB : Nat) (s : WinStore) (t : BucketStore)
    (hw : 0 < window) (hi : 0 < interval) :
    ((fixedWindow tokens window now s).1.success = false →
        (now : Int) < (fixedWindow tokens window now s).1.reset ∧
        (fixedWindow tokens window now s).1.reset ≠ 0) ∧
    ((eventualWrite tokens window now s).1.success = false →
        (now : Int) < (eventualWrite tokens window now s).1.reset ∧
        (eventualWrite tokens window now s).1.reset ≠ 0) ∧
    ((slidingWindow tokens window now s).1.success = false →
        (now : Int) < (slidingWindow tokens window now s).1.reset ∧
        (slidingWindow tokens window now s).1.reset ≠ 0) ∧
    ((tokenBucket refillRate interval maxTokens nowTB t).1.success = false →
        (nowTB : Int) < (tokenBucket refillRate interval maxTokens nowTB t).1.reset ∧
        (tokenBucket refillRate interval maxTokens nowTB t).1.reset ≠ 0) := by
  have hwin : (now : Int) < ((now / window : Nat) + 1 : Int) * (window : Int) := by
    have h1 : now < (now / window + 1) * window := by
      rw [Nat.add_mul, one_mul]
      exact Nat.lt_div_mul_add hw
    exact_mod_cast h1
  have hne : (((now / window : Nat) + 1 : Int) * (window : Int)) ≠ 0 :=
    ne_of_gt (lt_of_le_of_lt (Int.natCast_nonneg now) hwin)
  refine ⟨fun _ => ⟨hwin, hne⟩, fun _ => ⟨hwin, hne⟩, fun _ => ⟨hwin, hne⟩, ?_⟩
  intro _
  have hres : (nowTB : Int)
      < (tokenBucket refillRate interval maxTokens nowTB t).1.reset := by
    rcases hrec : t.record (nowTB / interval) with _ | ⟨u, tk⟩ <;>
      simp only [tokenBucket, tokenBucketScript, hrec]
    · omega
    · split_ifs <;> simp <;> omega
  exact ⟨hres, ne_of_gt (lt_of_le_of_lt (Int.natCast_nonneg nowTB) hres)⟩

/-- Witness for C7: evaluates `reset_future_on_denial` at quota 0, window
and interval 10, `now = 5` — all four algorithms deny, and each returned
`reset` (10, 10, 10, and 15) is beyond `now` and nonzero. -/
theorem reset_future_on_denial_witness :
    (fixedWindow 0 10 5 emptyWin).1.success = false ∧
    (5 : Int) < (fixedWindow 0 10 5 emptyWin).1.reset ∧
    (fixedWindow 0 10 5 emptyWin).1.reset ≠ 0 ∧
    (eventualWrite 0 10 5 emptyWin).1.success = false ∧
    (5 : Int) < (eventualWrite 0 10 5 emptyWin).1.reset ∧
    (slidingWindow 0 10 5 emptyWin).1.success = false ∧
    (5 : Int) < (slidingWindow 0 10 5 emptyWin).1.reset ∧
    (tokenBucket 1 10 1 5 emptyBucket).1.success = false ∧
    (5 : Int) < (tokenBucket 1 10 1 5 emptyBucket).1.reset ∧
    (tokenBucket 1 10 1 5 emptyBucket).1.reset ≠ 0 := by
  obtain ⟨hf, he, hs, ht⟩ :=
    reset_future_on_denial 0 10 5 1 10 1 5 emptyWin emptyBucket
      (by decide) (by decide)
  have hfs : (fixedWindow 0 10 5 emptyWin).1.success = false := by decide
  have hes : (eventualWrite 0 10 5 emptyWin).1.success = false := by decide
  have hss : (slidingWindow 0 10 5 emptyWin).1.success = false := by
    have hl : slidingLoad 0 10 5 emptyWin := by
      norm_num [slidingLoad, emptyWin, previousWindow, currentWindow]
    simp only [slidingWindow, slidingWindowScript, if_pos hl]
    rfl
  have hts : (tokenBucket 1 10 1 5 emptyBucket).1.success = false := by decide
  exact ⟨hfs, (hf hfs).1, (hf hfs).2, hes, (he hes).1, hss, (hs hss).1,
    hts, (ht hts).1, (ht hts).2⟩

/-- If a separator occurs in neither left part, splitting at its first
occurrence is unambiguous: `x ++ c :: y = x' ++ c :: y'` with `c ∉ x` and
`c ∉ x'` forces `x = x'` and `y = y'`. -/
theorem append_sep_inj {α : Type} (c : α) :
    ∀ (x x' y y' : List α), c ∉ x → c ∉ x' →
      x ++ c :: y = x' ++ c :: y' → x = x' ∧ y = y' := by
  intro x
  induction x with
  | nil =>
      intro x' y y' _ hx' h
      cases x' with
      | nil => simpa using h
      | cons a t =>
          simp only [List.nil_append, List.cons_append, List.cons.injEq] at h
          exact absurd (h.1 ▸ List.mem_cons_self a t) hx'
  | cons a t ih =>
      intro x' y y' hx hx' h
      cases x' with
      | nil =>
          simp only [List.cons_append, List.nil_append, List.cons.injEq] at h
          exact absurd (h.1 ▸ List.mem_cons_self a t) hx
      | cons a' t' =>
          simp only [List.cons_append, List.cons.injEq] at h
          obtain ⟨rfl, h2⟩ := h
          obtain ⟨ht, hy⟩ := ih t' y y' (fun hm => hx (List.mem_cons_of_mem _ hm))
            (fun hm => hx' (List.mem_cons_of_mem _ hm)) h2
          exact ⟨by rw [ht], hy⟩

/-- Splitting at the last occurrence of a separator absent from both right
parts is unambiguous. -/
theorem append_sep_last_inj {α : Type} (c : α) (a b a' b' : List α)
    (hb : c ∉ b) (hb' : c ∉ b') (h : a ++ c :: b = a' ++ c :: b') :
    a = a' ∧ b = b' := by
  have hr : b.reverse ++ c :: a.reverse = b'.reverse ++ c :: a'.reverse := by
    have := congrArg List.reverse h
    simpa [List.reverse_append] using this
  obtain ⟨h1, h2⟩ := append_sep_inj c b.reverse b'.reverse a.reverse a'.reverse
    (by simpa using hb) (by simpa using hb') hr
  exact ⟨List.reverse_injective h2, List.reverse_injective h1⟩

/-- C8: the store key is `prefix:identifier:bucket`, built by the `":"` join
of `Ratelimit.limit` and each algorithm's bucket-key join; for a fixed
prefix, distinct identifiers can never produce the same key as long as the
bucket components are decimal integer strings (which contain no `':'`) —
even when an identifier itself contains the delimiter. -/
theorem key_join_injective (pfx id1 id2 b1 b2 : String) (hid : id1 ≠ id2)
    (h1 : ':' ∉ b1.data) (h2 : ':' ∉ b2.data) :
    fullKey pfx id1 b1 ≠ fullKey pfx id2 b2 := by
  intro h
  apply hid
  have hd : (fullKey pfx id1 b1).data = (fullKey pfx id2 b2).data := by rw [h]
  simp only [fullKey, bucketKey, facadeKey, String.data_append] at hd
  have hd2 : (pfx.data ++ ':' :: id1.data) ++ ':' :: b1.data
      = (pfx.data ++ ':' :: id2.data) ++ ':' :: b2.data := by
    simpa [List.append_assoc] using hd
  obtain ⟨hmid, _⟩ := append_sep_last_inj ':' _ _ _ _ h1 h2 hd2
  have hids : id1.data = id2.data := by
    have := List.append_cancel_left hmid
    simpa using this
  cases id1; cases id2
  exact congrArg String.mk hids

/-- Witness for C8: applies `key_join_injective` at concrete strings —
`"p:a:x:1" ≠ "p:a:1"` even though the first identifier `"a:x"` contains the
delimiter, and `"p:a:1" ≠ "p:b:1"` for plainly distinct identifiers. -/
theorem key_join_injective_witness :
    fullKey ("p") ("a:x") ("1") ≠ fullKey ("p") ("a") ("1") ∧
    fullKey ("p") ("a") ("1") ≠ fullKey ("p") ("b") ("1") := by
  constructor
  · exact key_join_injective ("p") ("a:x") ("a") ("1") ("1") (by decide)
      (by decide) (by decide)
  · exact key_join_injective ("p") ("a") ("b") ("1") ("1") (by decide)
      (by decide) (by decide)

/-- C9: `blockUntilReady` with a non-positive timeout fails immediately with
the `InvalidArgument` error `"timeout must be positive"`, before the polling
loop runs: the call counter reports zero `limit` invocations, hence zero
store accesses, for every oracle, start time and fuel — and the error is
returned without any retry. -/
theorem blockUntilReady_nonpositive_timeout (limitFn : Int → RatelimitResponse)
    (timeout now : Int) (fuel : Nat) (h : timeout ≤ 0) :
    blockUntilReady limitFn timeout now fuel
      = (.thrown ("timeout must be positive"), 0) := by
  simp [blockUntilReady, h]

/-- Witness for C9: applies `blockUntilReady_nonpositive_timeout` at
timeouts `0` and `-7` against the always-admitting oracle — both fail with
the error and zero store accesses. -/
theorem blockUntilReady_nonpositive_timeout_witness :
    blockUntilReady constAllow 0 12 5
        = (.thrown ("timeout must be positive"), 0) ∧
    blockUntilReady constAllow (-7) 12 5
        = (.thrown ("timeout must be positive"), 0) :=
  ⟨blockUntilReady_nonpositive_timeout constAllow 0 12 5 (by decide),
   blockUntilReady_nonpositive_timeout constAllow (-7) 12 5 (by decide)⟩

end Ratelimit
